import Mathlib

/-!
Verification of the trajectory ingestion and time-weighted estimation engine
of the PottsKMC post-processing module (src/api/experiments.py).

The Python source is shallowly embedded:
  * numpy float arrays become lists of rationals (all claim-relevant
    arithmetic in the source is exact on the inputs considered);
  * lattice snapshots (numpy int64 arrays of shape (N, M)) become
    functions Fin N -> Fin M -> Int;
  * code that can raise becomes Except-valued;
  * the property dictionary of PottsResult becomes one Option-typed cache
    slot per cached observable that the claims touch;
  * quantities that the source pushes through a final `** 0.5` are tracked
    by their squares, so that everything stays inside the rationals.  Each
    such definition says so in its doc comment.
-/

/-! ## Time-weighted estimators (PottsResult.calculate_mean / calculate_var /
calculate_var_of_mean, src lines 157-177).  The source methods read
self.trajDt and self.totalSampleTime; here both are explicit arguments. -/

/-- Embeds `PottsResult.calculate_mean`: `(quantity * trajDt).sum / totalSampleTime`.
The numpy broadcast over trailing dimensions is modelled by applying this
function site-wise (the per-frame quantity at a fixed lattice site). -/
def calculate_mean (dt : List ℚ) (total : ℚ) (q : List ℚ) : ℚ :=
  (List.zipWith (fun x d => x * d) q dt).sum / total

/-- Embeds `PottsResult.calculate_var`: mean of the squared deviation from the mean. -/
def calculate_var (dt : List ℚ) (total : ℚ) (q : List ℚ) : ℚ :=
  calculate_mean dt total (q.map (fun x => (x - calculate_mean dt total q) ^ 2))

/-- Embeds `PottsResult.calculate_var_of_mean`:
`(((quantity - mean) * trajDt) ** 2).sum / totalSampleTime ** 2`. -/
def calculate_var_of_mean (dt : List ℚ) (total : ℚ) (q : List ℚ) : ℚ :=
  (List.zipWith (fun x d => ((x - calculate_mean dt total q) * d) ^ 2) q dt).sum / total ^ 2

/-- Sum of pairwise products is nonnegative when both factor lists are
pointwise nonnegative. -/
theorem zipWith_mul_sum_nonneg (l dt : List ℚ)
    (hl : ∀ x ∈ l, 0 ≤ x) (hd : ∀ d ∈ dt, 0 ≤ d) :
    0 ≤ (List.zipWith (fun x d => x * d) l dt).sum := by
  induction l generalizing dt with
  | nil => simp
  | cons a l ih =>
    cases dt with
    | nil => simp
    | cons d dt =>
      simp only [List.zipWith_cons_cons, List.sum_cons]
      have ha : 0 ≤ a := hl a (List.mem_cons_self _ _)
      have hdd : 0 ≤ d := hd d (List.mem_cons_self _ _)
      have := ih dt (fun x hx => hl x (List.mem_cons_of_mem _ hx))
        (fun x hx => hd x (List.mem_cons_of_mem _ hx))
      nlinarith

/-- C3: for the concrete 3-frame scenario of the spec (dwell times `[1,2,1]`,
energies `[0,1,1]`, `totalSampleTime = 4`) the time-weighted estimators give
exactly `mean = 3/4` and `variance = 3/16`. -/
theorem estimators_concrete_scenario :
    calculate_mean [1, 2, 1] 4 [0, 1, 1] = 3 / 4 ∧
    calculate_var [1, 2, 1] 4 [0, 1, 1] = 3 / 16 := by
  constructor <;> norm_num [calculate_mean, calculate_var]

/-- C10: if the dwell times are nonnegative and `totalSampleTime` equals their
sum and is strictly positive, `calculate_var` is nonnegative; the precondition
matters because for a total time different from the dwell sum the variance can
come out negative (witnessed by dwell times `[1,1]`, total `-4`, data `[0,1]`;
a total time unequal to the dwell-time sum is exactly what the second
`totalSampleTime` convention permits). -/
theorem calculate_var_nonneg_and_negative_example :
    (∀ (dt : List ℚ) (total : ℚ) (q : List ℚ), q.length = dt.length →
      (∀ d ∈ dt, 0 ≤ d) → total = dt.sum → 0 < total →
      0 ≤ calculate_var dt total q)
    ∧ calculate_var [1, 1] (-4) [0, 1] < 0
    ∧ ((-4 : ℚ) ≠ ([1, 1] : List ℚ).sum) := by
  refine ⟨?_, by norm_num [calculate_var, calculate_mean], by norm_num⟩
  intro dt total q _ hd htot hpos
  unfold calculate_var calculate_mean
  apply div_nonneg _ (le_of_lt hpos)
  apply zipWith_mul_sum_nonneg
  · intro x hx
    obtain ⟨y, _, rfl⟩ := List.mem_map.mp hx
    positivity
  · exact hd

/-- Witness for the hypotheses of `calculate_var_nonneg_and_negative_example`:
the concrete scenario input satisfies them and its variance is nonnegative. -/
theorem calculate_var_nonneg_witness :
    0 ≤ calculate_var [1, 2, 1] 4 [0, 1, 1] :=
  calculate_var_nonneg_and_negative_example.1 [1, 2, 1] 4 [0, 1, 1]
    (by norm_num) (by norm_num) (by norm_num) (by norm_num)

/-! ## The loaded result object (PottsResult, src lines 102-155).
The five trajectory arrays, the derived total sample time, the
`recordFreq` parameter (the only parameter the slicing operation reads) and
one cache slot per cached observable used by the claims.  The Python
`properties` dictionary entries "spatialCorrelation" and "Lambda" become the
two Option fields; an absent key is `none`. -/

structure PottsResult (N M : ℕ) where
  trajIdx : List ℤ
  traj : List (Fin N → Fin M → ℤ)
  trajT : List ℚ
  trajDt : List ℚ
  trajEnergy : List ℚ
  totalSampleTime : ℚ
  recordFreq : ℤ
  propsCorr : Option (List (List ℚ) × List (List ℚ))
  propsLambda : Option (List ℚ × List ℚ)

/-- Cyclic index shift: entry `x` of `np.roll(a, -k)` reads `a[(x+k) % n]`. -/
def shiftF {n : ℕ} (k : ℕ) (x : Fin n) : Fin n :=
  ⟨(x.val + k) % n, Nat.mod_lt _ x.pos⟩

/-- numpy `.mean(axis=(1,2))` of one frame: spatial average over all sites. -/
def spatialMean (N M : ℕ) (f : Fin N → Fin M → ℚ) : ℚ :=
  (∑ x : Fin N, ∑ y : Fin M, f x y) / ((N * M : ℕ) : ℚ)

/-- Embeds `aveSigma = self.calculate_mean(self.traj)` (src line 261): the site-wise
time-weighted mean lattice (broadcast of `calculate_mean` over sites). -/
def aveSigma (N M : ℕ) (dt : List ℚ) (total : ℚ)
    (traj : List (Fin N → Fin M → ℤ)) : Fin N → Fin M → ℚ :=
  fun x y => calculate_mean dt total (traj.map (fun σ => ((σ x y : ℤ) : ℚ)))

/-- Embeds `PottsResult._calculate_spatial_correlation` (src lines 258-267).  The
first component is the returned correlation value.  The second component is
the SQUARE of the returned standard error (`corr_std ** 2`); the source
computes `(calculate_var_of_mean(corrMean) / (N * M)) ** 0.5` and we keep the
quantity under the square root so the development stays in ℚ. -/
def spatialCorrPair {N M : ℕ} (st : PottsResult N M) (i j : ℕ) : ℚ × ℚ :=
  let ave := aveSigma N M st.trajDt st.totalSampleTime st.traj
  let corrMean : List ℚ := st.traj.map (fun σ =>
    spatialMean N M (fun x y =>
      ((σ (shiftF i x) (shiftF j y) : ℤ) : ℚ) * ((σ x y : ℤ) : ℚ)
        - ave x y * ave (shiftF i x) (shiftF j y)))
  (calculate_mean st.trajDt st.totalSampleTime corrMean,
   calculate_var_of_mean st.trajDt st.totalSampleTime corrMean / ((N * M : ℕ) : ℚ))

theorem shiftF_zero {n : ℕ} (x : Fin n) : shiftF 0 x = x := by
  apply Fin.ext
  simp [shiftF, Nat.mod_eq_of_lt x.isLt]

theorem spatialMean_sub (N M : ℕ) (f g : Fin N → Fin M → ℚ) :
    spatialMean N M (fun x y => f x y - g x y)
      = spatialMean N M f - spatialMean N M g := by
  unfold spatialMean
  rw [← sub_div]
  congr 1
  simp [Finset.sum_sub_distrib]

theorem zipWith_map_sub_sum {α : Type} (f : α → ℚ) (c : ℚ) :
    ∀ (l : List α) (dt : List ℚ), l.length = dt.length →
    (List.zipWith (fun x d => x * d) (l.map (fun a => f a - c)) dt).sum
      = (List.zipWith (fun x d => x * d) (l.map f) dt).sum - c * dt.sum := by
  intro l
  induction l with
  | nil =>
    intro dt h
    have : dt = [] := by
      cases dt with
      | nil => rfl
      | cons d dt => simp at h
    simp [this]
  | cons a l ih =>
    intro dt h
    cases dt with
    | nil => simp at h
    | cons d dt =>
      simp only [List.map_cons, List.zipWith_cons_cons, List.sum_cons, List.sum_cons]
      rw [ih dt (by simpa using h)]
      ring

/-- C6 (amended): the zero-offset spatial correlation equals the time-weighted
mean of the per-frame spatial mean of the squared lattice MINUS the spatial
mean of the squared site-wise time-mean lattice (the connected correlator uses
the time-mean lattice, not the per-frame spatial mean), provided
`totalSampleTime` equals the dwell-time sum and is nonzero. -/
theorem spatial_corr_zero_offset (N M : ℕ) (st : PottsResult N M)
    (h1 : st.totalSampleTime = st.trajDt.sum) (h2 : st.totalSampleTime ≠ 0)
    (hlen : st.traj.length = st.trajDt.length) :
    (spatialCorrPair st 0 0).1
      = calculate_mean st.trajDt st.totalSampleTime
          (st.traj.map (fun σ =>
            spatialMean N M (fun x y => ((σ x y : ℤ) : ℚ) * ((σ x y : ℤ) : ℚ))))
        - spatialMean N M (fun x y =>
            aveSigma N M st.trajDt st.totalSampleTime st.traj x y
              * aveSigma N M st.trajDt st.totalSampleTime st.traj x y) := by
  unfold spatialCorrPair
  simp only [shiftF_zero]
  have hfun : (fun (σ : Fin N → Fin M → ℤ) =>
      spatialMean N M (fun x y =>
        ((σ x y : ℤ) : ℚ) * ((σ x y : ℤ) : ℚ)
          - aveSigma N M st.trajDt st.totalSampleTime st.traj x y
            * aveSigma N M st.trajDt st.totalSampleTime st.traj x y))
      = (fun (σ : Fin N → Fin M → ℤ) =>
        (fun τ : Fin N → Fin M → ℤ =>
          spatialMean N M (fun x y => ((τ x y : ℤ) : ℚ) * ((τ x y : ℤ) : ℚ))) σ
          - spatialMean N M (fun x y =>
              aveSigma N M st.trajDt st.totalSampleTime st.traj x y
                * aveSigma N M st.trajDt st.totalSampleTime st.traj x y)) := by
    funext σ
    exact spatialMean_sub N M _ _
  rw [hfun]
  unfold calculate_mean
  rw [zipWith_map_sub_sum _ _ st.traj st.trajDt hlen]
  rw [sub_div]
  congr 1
  rw [← h1, mul_div_assoc, div_self h2, mul_one]

/-- Modelled from the spec wording of C6 only (for comparison with the code):
the time-weighted mean over frames of the per-frame spatial variance, where
the variance of a frame is the spatial mean of its squared lattice minus the
square of its spatial mean. -/
def specZeroOffsetCorr {N M : ℕ} (st : PottsResult N M) : ℚ :=
  calculate_mean st.trajDt st.totalSampleTime
    (st.traj.map (fun σ =>
      spatialMean N M (fun x y => ((σ x y : ℤ) : ℚ) * ((σ x y : ℤ) : ℚ))
        - spatialMean N M (fun x y => ((σ x y : ℤ) : ℚ))
          * spatialMean N M (fun x y => ((σ x y : ℤ) : ℚ))))

/-- The lattice `[[0, 1], [0, 0]]`: one nonzero site. -/
def sigmaA : Fin 2 → Fin 2 → ℤ := ![![0, 1], ![0, 0]]

/-- A 2 by 2 lattice with a single frame `sigmaA`. -/
def oneFrameState : PottsResult 2 2 where
  trajIdx := [0]
  traj := [sigmaA]
  trajT := [0]
  trajDt := [1]
  trajEnergy := [0]
  totalSampleTime := 1
  recordFreq := 1
  propsCorr := none
  propsLambda := none

/-- C6 counterexample: on `oneFrameState` the code computes `C(0,0) = 0`
while the time-weighted mean of the per-frame spatial variance is `3/16`;
the claimed identity fails. -/
theorem spatial_corr_zero_offset_cex :
    (spatialCorrPair oneFrameState 0 0).1 = 0
    ∧ specZeroOffsetCorr oneFrameState = 3 / 16
    ∧ (spatialCorrPair oneFrameState 0 0).1 ≠ specZeroOffsetCorr oneFrameState := by
  have h1 : (spatialCorrPair oneFrameState 0 0).1 = 0 := by
    norm_num [spatialCorrPair, calculate_mean, aveSigma, spatialMean, oneFrameState,
      sigmaA, Fin.sum_univ_two, shiftF_zero, Matrix.cons_val_zero, Matrix.cons_val_one,
      Matrix.head_cons]
  have h2 : specZeroOffsetCorr oneFrameState = 3 / 16 := by
    norm_num [specZeroOffsetCorr, calculate_mean, spatialMean, oneFrameState,
      sigmaA, Fin.sum_univ_two, Matrix.cons_val_zero, Matrix.cons_val_one,
      Matrix.head_cons]
  refine ⟨h1, h2, ?_⟩
  rw [h1, h2]
  norm_num

/-- Witness for `spatial_corr_zero_offset`: `oneFrameState` satisfies the
hypotheses and the zero-offset identity. -/
theorem spatial_corr_zero_offset_witness :
    (oneFrameState.totalSampleTime = oneFrameState.trajDt.sum
      ∧ oneFrameState.totalSampleTime ≠ 0
      ∧ oneFrameState.traj.length = oneFrameState.trajDt.length)
    ∧ (spatialCorrPair oneFrameState 0 0).1
      = calculate_mean oneFrameState.trajDt oneFrameState.totalSampleTime
          (oneFrameState.traj.map (fun σ =>
            spatialMean 2 2 (fun x y => ((σ x y : ℤ) : ℚ) * ((σ x y : ℤ) : ℚ))))
        - spatialMean 2 2 (fun x y =>
            aveSigma 2 2 oneFrameState.trajDt oneFrameState.totalSampleTime
                oneFrameState.traj x y
              * aveSigma 2 2 oneFrameState.trajDt oneFrameState.totalSampleTime
                oneFrameState.traj x y) :=
  ⟨⟨by norm_num [oneFrameState], by norm_num [oneFrameState], by simp [oneFrameState]⟩,
    spatial_corr_zero_offset 2 2 oneFrameState (by norm_num [oneFrameState])
      (by norm_num [oneFrameState]) (by simp [oneFrameState])⟩

/-! ## Symmetrized correlation Lambda (src lines 269-306) and the
spatial-correlation cache (src lines 218-256). -/

/-- The pair of lists computed by `recalculate_lambda` on the `cutoff=None`
path: `Lambda = (VCorr + HCorr) / 2` where `VCorr[i] = C(i,0)` and
`HCorr[j] = C(0,j)`, with `Nmax = min(N//2, M//2)`.  The second list carries
the SQUARES of the combined standard errors: the source computes
`((VCorr_std ** 2 + HCorr_std ** 2) / 2) ** 0.5`, and since
`spatialCorrPair` already tracks squared errors this is `(v + h) / 2`. -/
def lambdaPairOf {N M : ℕ} (st : PottsResult N M) : List ℚ × List ℚ :=
  let Nmax := min (N / 2) (M / 2)
  let V := (List.range Nmax).map (fun i => spatialCorrPair st i 0)
  let H := (List.range Nmax).map (fun j => spatialCorrPair st 0 j)
  (List.zipWith (fun a b => (a.1 + b.1) / 2) V H,
   List.zipWith (fun a b => (a.2 + b.2) / 2) V H)

/-- Embeds `PottsResult.recalculate_lambda` (src lines 269-291).  When an explicit
cutoff is passed, the source never assigns its local loop bound `Nmax`
(the assignment sits under `if cutoff is None:`) and `np.zeros(Nmax)` raises
UnboundLocalError; with `cutoff=None` it computes `lambdaPairOf` and stores
it in the properties cache under "Lambda". -/
def recalculate_lambda {N M : ℕ} (st : PottsResult N M) (cutoff : Option ℕ) :
    Except String ((List ℚ × List ℚ) × PottsResult N M) :=
  match cutoff with
  | some _ => .error "UnboundLocalError: local variable Nmax referenced before assignment"
  | none =>
    let L := lambdaPairOf st
    .ok (L, { st with propsLambda := some L })

/-- Element `k` of a zipWith of two maps over `List.range n`. -/
theorem zipWith_range_map_getElem {β : Type} (F : β → β → ℚ) (f g : ℕ → β)
    (n k : ℕ) (hk : k < n) :
    (List.zipWith F ((List.range n).map f) ((List.range n).map g))[k]?
      = some (F (f k) (g k)) := by
  rw [List.zipWith_map, List.zipWith_same, List.getElem?_map, List.getElem?_range hk]
  rfl

/-- C4 (amended to the `cutoff=None` path, the only one the code completes):
`recalculate_lambda` succeeds and for every `k` below `min(N//2, M//2)` the
value is `(C(k,0) + C(0,k)) / 2` and the squared combined error is the mean
of the two squared errors — i.e. the error is
`sqrt((err(C(k,0))^2 + err(C(0,k))^2) / 2)`. -/
theorem recalculate_lambda_default (N M : ℕ) (st : PottsResult N M) (k : ℕ)
    (hk : k < min (N / 2) (M / 2)) :
    recalculate_lambda st none
      = .ok (lambdaPairOf st, { st with propsLambda := some (lambdaPairOf st) })
    ∧ (lambdaPairOf st).1[k]?
      = some (((spatialCorrPair st k 0).1 + (spatialCorrPair st 0 k).1) / 2)
    ∧ (lambdaPairOf st).2[k]?
      = some (((spatialCorrPair st k 0).2 + (spatialCorrPair st 0 k).2) / 2) := by
  refine ⟨rfl, ?_, ?_⟩
  · exact zipWith_range_map_getElem (fun a b => (a.1 + b.1) / 2)
      (fun i => spatialCorrPair st i 0) (fun j => spatialCorrPair st 0 j) _ k hk
  · exact zipWith_range_map_getElem (fun a b => (a.2 + b.2) / 2)
      (fun i => spatialCorrPair st i 0) (fun j => spatialCorrPair st 0 j) _ k hk

/-- A 2 by 2, two-frame result used as a concrete test input. -/
def twoFrameState : PottsResult 2 2 where
  trajIdx := [0, 1]
  traj := [![![0, 0], ![0, 0]], ![![1, 0], ![0, 0]]]
  trajT := [0, 1]
  trajDt := [1, 1]
  trajEnergy := [0, 1]
  totalSampleTime := 2
  recordFreq := 1
  propsCorr := none
  propsLambda := none

/-- C4 counterexample: with an explicitly supplied cutoff the Lambda
computation does not return the claimed symmetrized values at all — it fails
with UnboundLocalError (the loop bound is only assigned on the default
path). -/
theorem recalculate_lambda_explicit_cutoff_cex :
    recalculate_lambda twoFrameState (some 1)
      = .error "UnboundLocalError: local variable Nmax referenced before assignment" :=
  rfl

/-- Witness for `recalculate_lambda_default` at `twoFrameState`, `k = 0`. -/
theorem recalculate_lambda_default_witness :
    (0 < min (2 / 2) (2 / 2))
    ∧ (recalculate_lambda twoFrameState none
        = .ok (lambdaPairOf twoFrameState,
            { twoFrameState with propsLambda := some (lambdaPairOf twoFrameState) })
      ∧ (lambdaPairOf twoFrameState).1[0]?
        = some (((spatialCorrPair twoFrameState 0 0).1
            + (spatialCorrPair twoFrameState 0 0).1) / 2)
      ∧ (lambdaPairOf twoFrameState).2[0]?
        = some (((spatialCorrPair twoFrameState 0 0).2
            + (spatialCorrPair twoFrameState 0 0).2) / 2)) :=
  ⟨by decide, recalculate_lambda_default 2 2 twoFrameState 0 (by decide)⟩

/-- Cutoff argument of the correlation routines: `None`, a scalar, or a pair
(src lines 226-231 / 248-253). -/
def corrBounds (N M : ℕ) : Option (ℕ ⊕ ℕ × ℕ) → ℕ × ℕ
  | none => (N / 2, M / 2)
  | some (.inl c) => (c, c)
  | some (.inr p) => p

/-- Embeds `PottsResult.recalculate_spatial_correlation` (src lines 218-238): fills
an `Nmax × Mmax` matrix of pairwise correlations, stores the
(values, squared standard errors) pair in the cache under
"spatialCorrelation", and returns only the value matrix (the source has
`return correlations`, not the stored tuple). -/
def recalculate_spatial_correlation {N M : ℕ} (st : PottsResult N M)
    (cutoff : Option (ℕ ⊕ ℕ × ℕ)) : List (List ℚ) × PottsResult N M :=
  let b := corrBounds N M cutoff
  let vals := (List.range b.1).map (fun i =>
    (List.range b.2).map (fun j => (spatialCorrPair st i j).1))
  let stds := (List.range b.1).map (fun i =>
    (List.range b.2).map (fun j => (spatialCorrPair st i j).2))
  (vals, { st with propsCorr := some (vals, stds) })

/-- What `PottsResult.get_spatial_correlation` hands back on the cache-miss
path: the bare value matrix from the recomputation (not a (value, error)
pair). -/
inductive CorrGet
  | freshVals (vals : List (List ℚ))
deriving DecidableEq

/-- Embeds `PottsResult.get_spatial_correlation` (src lines 240-256).  When the
"spatialCorrelation" cache entry exists, the source evaluates
`self.properties["spatialCorrelation"].shape` — but the cached object is the
(values, errors) TUPLE stored by the recalculation, and a tuple has no
`shape` attribute, so the getter raises AttributeError on every cache hit.
On a cache miss it recomputes (the computed bounds are not consulted on this
path). -/
def get_spatial_correlation {N M : ℕ} (st : PottsResult N M)
    (cutoff : Option (ℕ ⊕ ℕ × ℕ)) : Except String (CorrGet × PottsResult N M) :=
  match st.propsCorr with
  | some _ => .error "AttributeError: tuple object has no attribute shape"
  | none =>
    let r := recalculate_spatial_correlation st cutoff
    .ok (.freshVals r.1, r.2)

/-- Embeds `PottsResult.get_lambda` (src lines 293-306).  With an explicit cutoff the
source raises UnboundLocalError (either directly at the cache comparison or
inside `recalculate_lambda`).  With the default cutoff and a populated cache
it compares `Nmax` against `len(self.properties["Lambda"])` — the length of
the cached (values, errors) TUPLE, which is always 2 — so the cache is
consulted exactly when `min(N//2, M//2) == 2`. -/
def get_lambda {N M : ℕ} (st : PottsResult N M) (cutoff : Option ℕ) :
    Except String ((List ℚ × List ℚ) × PottsResult N M) :=
  match cutoff with
  | some _ => .error "UnboundLocalError: local variable Nmax referenced before assignment"
  | none =>
    let Nmax := min (N / 2) (M / 2)
    match st.propsLambda with
    | some L => if Nmax = 2 then .ok (L, st) else (recalculate_lambda st none)
    | none => recalculate_lambda st none

/-- C5 (code bug, evaluated at a failing input): once the spatial-correlation
cache is populated, the getter does not return the cached entry — it fails
with AttributeError, because the getter reads `.shape` off the cached tuple. -/
theorem get_spatial_correlation_cached_fails :
    get_spatial_correlation
        (recalculate_spatial_correlation twoFrameState none).2 none
      = .error "AttributeError: tuple object has no attribute shape" :=
  rfl

/-! ## Character-level text utilities.
The Python source manipulates text with `re` and `str` methods; the core
Lean string functions are not kernel-reducible, so the embedding works on
the underlying character lists (a text line IS its character sequence) with
structurally recursive equivalents of exactly the operations the source
uses. -/

abbrev Chars := List Char

def isPrefixChars : Chars → Chars → Bool
  | [], _ => true
  | _ :: _, [] => false
  | p :: ps, c :: cs => p = c && isPrefixChars ps cs

/-- Index of the leftmost occurrence of the literal `pat` (what `re.search`
reports for a literal pattern). -/
def firstOccIdx (pat : Chars) : Chars → Option ℕ
  | [] => if isPrefixChars pat [] then some 0 else none
  | c :: cs =>
    if isPrefixChars pat (c :: cs) then some 0
    else (firstOccIdx pat cs).map (· + 1)

/-- Python `pat in s`. -/
def containsSub (s pat : Chars) : Bool := (firstOccIdx pat s).isSome

/-! ## Trajectory artifacts and their decoders
(PottsResult.load_traj / _load_fullstate_traj / _load_onlychange_traj,
src lines 112-155).  The numeric body of an artifact is supplied already
parsed into typed rows of the arity the selected branch slices out of the
`np.loadtxt` matrix; ill-shaped numeric content (rows of the wrong width,
state blocks of the wrong length, out-of-range flip indices) raises the
separate ShapeError family the claims do not exercise, so such artifacts
sit outside the embedded domain. -/

inductive TrajKind
  | fullState
  | onlyChange
deriving DecidableEq

/-- Embeds `re.search(r"FullState|OnlyChange", firstLine)` (src line 114): the
leftmost occurrence wins (the two literals can never start at the same
position). -/
def findTrajType (line : Chars) : Option TrajKind :=
  match firstOccIdx "FullState".toList line, firstOccIdx "OnlyChange".toList line with
  | none, none => none
  | some _, none => some .fullState
  | none, some _ => some .onlyChange
  | some a, some b => if a ≤ b then some .fullState else some .onlyChange

/-- One numeric row of a FullState artifact:
`[frameIndex, state(N*M flattened), time, dwellTime, energy]`, with the
state block already reshaped to (N, M). -/
structure FSRow (N M : ℕ) where
  frameIndex : ℤ
  state : Fin N → Fin M → ℤ
  t : ℚ
  dt : ℚ
  energy : ℚ

/-- One numeric row of an OnlyChange artifact:
`[row, col, newSpinValue, time, dwellTime, energy]`. -/
structure OCRow (N M : ℕ) where
  ri : Fin N
  ci : Fin M
  newSpin : ℤ
  t : ℚ
  dt : ℚ
  energy : ℚ

/-- An OnlyChange artifact after its first line: the text left of `=` on the
second line, the parsed initial lattice, and the numeric rows.
NOTE (claim C2): the source parses the initial state with
`np.array(map(int, v.strip().split()), ...)` (src line 136), which under
Python 3 hands numpy a map object and raises TypeError before any
reconstruction runs; the intended element-wise parse is modelled here and
the slip is reported with claim C2. -/
structure OCData (N M : ℕ) where
  secondKey : Chars
  initState : Fin N → Fin M → ℤ
  rows : List (OCRow N M)

/-- The five arrays a decoder produces (before `totalSampleTime` is set). -/
structure TrajArrays (N M : ℕ) where
  trajIdx : List ℤ
  traj : List (Fin N → Fin M → ℤ)
  trajT : List ℚ
  trajDt : List ℚ
  trajEnergy : List ℚ

/-- Embeds `PottsResult._load_fullstate_traj` (src lines 148-155). -/
def decodeFullState {N M : ℕ} (rows : List (FSRow N M)) : TrajArrays N M :=
  { trajIdx := rows.map (·.frameIndex)
    traj := rows.map (·.state)
    trajT := rows.map (·.t)
    trajDt := rows.map (·.dt)
    trajEnergy := rows.map (·.energy) }

/-- One step of the replay loop (src lines 144-146): copy the previous frame
and overwrite the single cell `(row, col)` with the new spin value. -/
def applyFlip {N M : ℕ} (s : Fin N → Fin M → ℤ) (f : Fin N × Fin M × ℤ) :
    Fin N → Fin M → ℤ :=
  fun x y => if x = f.1 ∧ y = f.2.1 then f.2.2 else s x y

/-- The replay loop: frame 0 is the initial state; each flip produces the
next frame from the previous one. -/
def replayFlips {N M : ℕ} (s : Fin N → Fin M → ℤ) :
    List (Fin N × Fin M × ℤ) → List (Fin N → Fin M → ℤ)
  | [] => [s]
  | f :: fs => s :: replayFlips (applyFlip s f) fs

/-- The flip triple carried by an OnlyChange row (columns `[:3]`). -/
def ocFlip {N M : ℕ} (r : OCRow N M) : Fin N × Fin M × ℤ := (r.ri, r.ci, r.newSpin)

/-- The arrays `_load_onlychange_traj` (src lines 129-146) builds once the
"Initial State" check has passed: the dense sequence is reconstructed by
replaying the first `rowCount - 1` flip triples from the initial state (the
last row's flip fields are unused padding). -/
def ocArrays {N M : ℕ} (d : OCData N M) : TrajArrays N M :=
  { trajIdx := (List.range d.rows.length).map (fun n => (n : ℤ))
    traj := match d.rows with
      | [] => []
      | _ :: _ => replayFlips d.initState ((d.rows.dropLast).map ocFlip)
    trajT := d.rows.map (·.t)
    trajDt := d.rows.map (·.dt)
    trajEnergy := d.rows.map (·.energy) }

def decodeOnlyChange {N M : ℕ} (d : OCData N M) : Except String (TrajArrays N M) :=
  if containsSub d.secondKey "Initial State".toList then .ok (ocArrays d)
  else .error "KeyError: Invalid Initial State entry in the 2nd line"

@[simp]
theorem ocArrays_trajT {N M : ℕ} (d : OCData N M) :
    (ocArrays d).trajT = d.rows.map (fun r => r.t) := rfl

@[simp]
theorem ocArrays_trajDt {N M : ℕ} (d : OCData N M) :
    (ocArrays d).trajDt = d.rows.map (fun r => r.dt) := rfl

theorem decodeOnlyChange_ok {N M : ℕ} (d : OCData N M)
    (hkey : containsSub d.secondKey "Initial State".toList = true) :
    decodeOnlyChange d = .ok (ocArrays d) := by
  unfold decodeOnlyChange
  rw [if_pos hkey]

/-- Embeds `PottsResult.totalTime` (src lines 125-127):
`trajT[-1] + trajDt[-1] - trajT[0]`; numpy raises IndexError on an empty
array. -/
def totalTimeList (ts dts : List ℚ) : Except String ℚ :=
  match ts.getLast?, dts.getLast?, ts.head? with
  | some tl, some dl, some t0 => .ok (tl + dl - t0)
  | _, _, _ => .error "IndexError: index -1 is out of bounds"

/-- Assemble a result object from decoded arrays, a total sample time and
the record frequency parameter; a freshly loaded result has an empty cache. -/
def mkResult {N M : ℕ} (a : TrajArrays N M) (total : ℚ) (rf : ℤ) : PottsResult N M :=
  { trajIdx := a.trajIdx, traj := a.traj, trajT := a.trajT, trajDt := a.trajDt
    trajEnergy := a.trajEnergy, totalSampleTime := total, recordFreq := rf
    propsCorr := none, propsLambda := none }

/-- Embeds `PottsResult.load_traj` (src lines 112-123): dispatch on the first-line
marker; the FullState branch sets `totalSampleTime = trajDt.sum()` and the
OnlyChange branch sets `totalSampleTime = self.totalTime`. -/
def load_traj {N M : ℕ} (firstLine : Chars) (fs : List (FSRow N M))
    (oc : OCData N M) (rf : ℤ) : Except String (PottsResult N M) :=
  match findTrajType firstLine with
  | none => .error "KeyError: Invalid type mark in the 1st line"
  | some .fullState =>
    let a := decodeFullState fs
    .ok (mkResult a a.trajDt.sum rf)
  | some .onlyChange =>
    match decodeOnlyChange oc with
    | .error e => .error e
    | .ok a =>
      match totalTimeList a.trajT a.trajDt with
      | .error e => .error e
      | .ok total => .ok (mkResult a total rf)

theorem totalTimeList_ok (ts dts : List ℚ) (q : ℚ)
    (h : totalTimeList ts dts = .ok q) :
    q = ts.getLast?.getD 0 + dts.getLast?.getD 0 - ts.head?.getD 0 := by
  unfold totalTimeList at h
  cases h1 : ts.getLast? with
  | none => rw [h1] at h; cases h
  | some tl =>
    cases h2 : dts.getLast? with
    | none => rw [h1, h2] at h; cases h
    | some dl =>
      cases h3 : ts.head? with
      | none => rw [h1, h2, h3] at h; cases h
      | some t0 =>
        rw [h1, h2, h3] at h
        cases h
        simp

/-- C1 (amended — the two conventions are swapped relative to the spec
text): for every successfully loaded trajectory, a FullState artifact gets
`totalSampleTime = sum(dwellTime)` and an OnlyChange artifact gets
`totalSampleTime = time[-1] + dwellTime[-1] - time[0]`. -/
theorem load_traj_totalSampleTime (N M : ℕ) (firstLine : Chars)
    (fs : List (FSRow N M)) (oc : OCData N M) (rf : ℤ) (r : PottsResult N M)
    (hr : load_traj firstLine fs oc rf = .ok r) :
    (findTrajType firstLine = some .fullState →
      r.totalSampleTime = r.trajDt.sum)
    ∧ (findTrajType firstLine = some .onlyChange →
      r.totalSampleTime
        = r.trajT.getLast?.getD 0 + r.trajDt.getLast?.getD 0 - r.trajT.head?.getD 0) := by
  unfold load_traj at hr
  cases hk : findTrajType firstLine with
  | none => rw [hk] at hr; cases hr
  | some k =>
    rw [hk] at hr
    cases k with
    | fullState =>
      cases hr
      refine ⟨fun _ => rfl, fun hoc => absurd hoc (by simp)⟩
    | onlyChange =>
      refine ⟨fun hfsm => absurd hfsm (by simp), fun _ => ?_⟩
      cases ha : decodeOnlyChange oc with
      | error e => rw [ha] at hr; cases hr
      | ok a =>
        rw [ha] at hr
        have hr2 : (match totalTimeList a.trajT a.trajDt with
            | .error e => (Except.error e : Except String (PottsResult N M))
            | .ok total => .ok (mkResult a total rf)) = .ok r := hr
        cases ht : totalTimeList a.trajT a.trajDt with
        | error e => rw [ht] at hr2; cases hr2
        | ok total =>
          rw [ht] at hr2
          cases hr2
          exact totalTimeList_ok a.trajT a.trajDt total ht

/-- The two-row FullState body used by the C1 counterexample: times `[0, 10]`
and dwell times `[1, 1]`, so the dwell sum (2) differs from the time span
(11). -/
def cexFSRows : List (FSRow 1 1) :=
  [{ frameIndex := 0, state := fun _ _ => 0, t := 0, dt := 1, energy := 0 },
   { frameIndex := 1, state := fun _ _ => 0, t := 10, dt := 1, energy := 0 }]

/-- A well-formed OnlyChange body (used where the OnlyChange branch is not
taken, or as a minimal valid artifact). -/
def cexOCData : OCData 1 1 :=
  { secondKey := "# Initial State ".toList
    initState := fun _ _ => 0
    rows := [{ ri := 0, ci := 0, newSpin := 0, t := 0, dt := 1, energy := 0 }] }

/-- C1 counterexample: loading the FullState artifact with times `[0, 10]`
and dwell times `[1, 1]` sets `totalSampleTime = 2` (the dwell sum), not
`time[-1] + dwellTime[-1] - time[0] = 11` as the claim states for the dense
encoding. -/
theorem load_traj_fullstate_total_cex :
    (load_traj "# FullState".toList cexFSRows cexOCData 1).toOption.map
        (fun r => r.totalSampleTime) = some 2
    ∧ ((2 : ℚ) ≠ 10 + 1 - 0) := by
  have hm : findTrajType ("# FullState".toList) = some TrajKind.fullState := by decide
  have hload : load_traj "# FullState".toList cexFSRows cexOCData 1
      = .ok (mkResult (decodeFullState cexFSRows)
          (decodeFullState cexFSRows).trajDt.sum 1) := by
    unfold load_traj
    rw [hm]
  constructor
  · rw [hload]
    show some (mkResult (decodeFullState cexFSRows)
        (decodeFullState cexFSRows).trajDt.sum 1).totalSampleTime = some 2
    norm_num [mkResult, decodeFullState, cexFSRows]
  · norm_num

/-- Witness for `load_traj_totalSampleTime` at the concrete FullState load. -/
theorem load_traj_totalSampleTime_witness :
    (load_traj "# FullState".toList cexFSRows cexOCData 1
      = .ok (mkResult (decodeFullState cexFSRows)
          (decodeFullState cexFSRows).trajDt.sum 1))
    ∧ ((findTrajType ("# FullState".toList) = some .fullState →
        (mkResult (decodeFullState cexFSRows)
          (decodeFullState cexFSRows).trajDt.sum 1).totalSampleTime
          = (mkResult (decodeFullState cexFSRows)
              (decodeFullState cexFSRows).trajDt.sum 1).trajDt.sum)
      ∧ (findTrajType ("# FullState".toList) = some .onlyChange →
        (mkResult (decodeFullState cexFSRows)
          (decodeFullState cexFSRows).trajDt.sum 1).totalSampleTime
          = (mkResult (decodeFullState cexFSRows)
              (decodeFullState cexFSRows).trajDt.sum 1).trajT.getLast?.getD 0
            + (mkResult (decodeFullState cexFSRows)
                (decodeFullState cexFSRows).trajDt.sum 1).trajDt.getLast?.getD 0
            - (mkResult (decodeFullState cexFSRows)
                (decodeFullState cexFSRows).trajDt.sum 1).trajT.head?.getD 0)) := by
  have hload : load_traj "# FullState".toList cexFSRows cexOCData 1
      = .ok (mkResult (decodeFullState cexFSRows)
          (decodeFullState cexFSRows).trajDt.sum 1) := by
    have hm : findTrajType ("# FullState".toList) = some TrajKind.fullState := by decide
    unfold load_traj
    rw [hm]
  exact ⟨hload,
    load_traj_totalSampleTime 1 1 "# FullState".toList cexFSRows cexOCData 1 _ hload⟩

/-- The claim C2 coupling between a dense state sequence and its recorded
flip list: frame 0 is the head, and each later frame equals the previous
frame with the recorded single-cell overwrite applied. -/
def flipsConsistent {N M : ℕ} :
    List (Fin N → Fin M → ℤ) → List (Fin N × Fin M × ℤ) → Prop
  | [_], [] => True
  | s :: s2 :: rest, f :: fs => s2 = applyFlip s f ∧ flipsConsistent (s2 :: rest) fs
  | _, _ => False

theorem replayFlips_eq {N M : ℕ} :
    ∀ (flips : List (Fin N × Fin M × ℤ)) (s0 : Fin N → Fin M → ℤ)
      (rest : List (Fin N → Fin M → ℤ)),
    flipsConsistent (s0 :: rest) flips → replayFlips s0 flips = s0 :: rest := by
  intro flips
  induction flips with
  | nil =>
    intro s0 rest h
    cases rest with
    | nil => rfl
    | cons a t => simp only [flipsConsistent] at h
  | cons f fs ih =>
    intro s0 rest h
    cases rest with
    | nil => simp only [flipsConsistent] at h
    | cons s2 rest2 =>
      simp only [flipsConsistent] at h
      obtain ⟨h1, h2⟩ := h
      unfold replayFlips
      rw [← h1, ih s2 rest2 h2]

/-- C2 (code bug, the intended algorithm verified): decoding an OnlyChange
artifact whose rows record every single-cell flip of a dense state sequence
reproduces exactly that dense sequence — the same array a FullState artifact
for the sequence decodes to.  (The shipped source never reaches the replay:
parsing the initial state raises TypeError under Python 3, see `OCData`.) -/
theorem onlychange_replay_matches_fullstate (N M : ℕ)
    (dense : List (Fin N → Fin M → ℤ)) (s0 : Fin N → Fin M → ℤ)
    (flips : List (Fin N × Fin M × ℤ))
    (d : OCData N M) (fs : List (FSRow N M))
    (hkey : containsSub d.secondKey ("Initial State".toList) = true)
    (hinit : d.initState = s0)
    (hhead : dense.head? = some s0)
    (hcons : flipsConsistent dense flips)
    (hlen : d.rows.length = dense.length)
    (hfl : (d.rows.dropLast).map ocFlip = flips)
    (hfs : fs.map FSRow.state = dense) :
    (decodeOnlyChange d).toOption.map TrajArrays.traj = some dense
    ∧ (decodeFullState fs).traj = dense := by
  cases dense with
  | nil => cases hhead
  | cons s0q rest =>
    have hs0 : s0q = s0 := by
      simpa using hhead
    rw [← hs0] at hinit
    constructor
    · rw [decodeOnlyChange_ok d hkey]
      unfold ocArrays
      cases hrows : d.rows with
      | nil => rw [hrows] at hlen; cases hlen
      | cons r rs =>
        simp only [Except.toOption, Option.map]
        rw [hrows] at hfl
        rw [hfl, hinit]
        rw [replayFlips_eq flips s0q rest hcons]
    · rw [← hfs]
      rfl

/-- All-zero 1 by 1 lattice. -/
def wStateA : Fin 1 → Fin 1 → ℤ := fun _ _ => 0

/-- State `wStateA` with its single cell flipped to 1. -/
def wStateB : Fin 1 → Fin 1 → ℤ := applyFlip wStateA (0, 0, 1)

/-- OnlyChange artifact recording the flip sequence of `[wStateA, wStateB]`
(second row is end padding, its flip fields unused). -/
def wOCData : OCData 1 1 :=
  { secondKey := "# Initial State ".toList
    initState := wStateA
    rows := [{ ri := 0, ci := 0, newSpin := 1, t := 0, dt := 1, energy := 0 },
             { ri := 0, ci := 0, newSpin := 0, t := 1, dt := 1, energy := 0 }] }

/-- FullState artifact for the same dense sequence. -/
def wFSRows : List (FSRow 1 1) :=
  [{ frameIndex := 0, state := wStateA, t := 0, dt := 1, energy := 0 },
   { frameIndex := 1, state := wStateB, t := 1, dt := 1, energy := 0 }]

/-- Witness for `onlychange_replay_matches_fullstate` at a concrete two-frame
sequence with one flip. -/
theorem onlychange_replay_witness :
    (containsSub wOCData.secondKey ("Initial State".toList) = true
      ∧ wOCData.initState = wStateA
      ∧ ([wStateA, wStateB] : List (Fin 1 → Fin 1 → ℤ)).head? = some wStateA
      ∧ flipsConsistent [wStateA, wStateB] [((0 : Fin 1), (0 : Fin 1), (1 : ℤ))]
      ∧ wOCData.rows.length = ([wStateA, wStateB] : List (Fin 1 → Fin 1 → ℤ)).length
      ∧ (wOCData.rows.dropLast).map ocFlip = [((0 : Fin 1), (0 : Fin 1), (1 : ℤ))]
      ∧ wFSRows.map FSRow.state = [wStateA, wStateB])
    ∧ ((decodeOnlyChange wOCData).toOption.map TrajArrays.traj
        = some [wStateA, wStateB]
      ∧ (decodeFullState wFSRows).traj = [wStateA, wStateB]) := by
  refine ⟨⟨by decide, rfl, rfl, ⟨rfl, trivial⟩, rfl, rfl, rfl⟩, ?_⟩
  exact onlychange_replay_matches_fullstate 1 1 [wStateA, wStateB] wStateA
    [((0 : Fin 1), (0 : Fin 1), (1 : ℤ))] wOCData wFSRows (by decide) rfl rfl
    ⟨rfl, trivial⟩ rfl rfl rfl

/-! ## Log parsing (PottsExperiment.from_log, src lines 56-75).
The log file is given as its list of lines (each line a character list).
Values may not contain an embedded `=` (the spec states this restriction;
the source would crash unpacking such a line), so a matched line splits into
exactly one key part and one value part. -/

def isSpaceChar (c : Char) : Bool :=
  c = ' ' || c = '\t' || c = '\r' || c = '\n'

/-- Python `str.strip()`. -/
def trimChars (s : Chars) : Chars :=
  ((s.dropWhile isSpaceChar).reverse.dropWhile isSpaceChar).reverse

/-- Strip trailing whitespace only. -/
def trimRightChars (s : Chars) : Chars :=
  (s.reverse.dropWhile isSpaceChar).reverse

/-- A regex `\w` character. -/
def isWordChar (c : Char) : Bool := c.isAlphanum || c = '_'

/-- Split at every occurrence of a separator character (Python
`str.split(sep)` for a one-character separator). -/
def splitOnChar (sep : Char) : Chars → List Chars
  | [] => [[]]
  | c :: cs =>
    if c = sep then [] :: splitOnChar sep cs
    else
      match splitOnChar sep cs with
      | [] => [[c]]
      | g :: gs => (c :: g) :: gs

/-- Result of the source loop body at one parameter-block line (src lines
69-71): `none` when the line does not match `^\w+\s*=\s*\S+.*$` (it is never
produced by `re.findall`); an unpack error when the regex matches but the
line holds two or more `=` (the `k, v = rawParam.split('=')` destructuring
at src line 70 raises ValueError); the stripped (key, value) pair otherwise.
A line with two or more `=` matches the regex exactly when its key part
does: everything after the first `=` then contains a second `=`, a
non-space character, which satisfies `\s*\S+.*`.  Regex `\s` is modelled as
space/tab/CR/LF (form feed, vertical tab and non-ascii spaces are outside
the modelled character set).  Parsing is line-oriented, as the spec
specifies; a match whose `\s*` swallows a line break (key and `=` on
different physical lines) is outside the modelled domain. -/
def paramLineStep (line : Chars) : Option (Except String (Chars × Chars)) :=
  match splitOnChar '=' line with
  | [k, v] =>
    let kt := trimRightChars k
    let vt := trimChars v
    if (!kt.isEmpty) && kt.all isWordChar && (!vt.isEmpty) then some (.ok (kt, vt))
    else none
  | k :: _ :: _ :: _ =>
    let kt := trimRightChars k
    if (!kt.isEmpty) && kt.all isWordChar then
      some (.error "ValueError: too many values to unpack")
    else none
  | _ => none

/-- A parameter-block line that matches the regex AND destructures cleanly
yields its stripped (key, value) pair; every other line yields `none`.  (For
a matched line the key part starts with a word character, so stripping its
trailing whitespace coincides with Python `strip()`.) -/
def matchKV (line : Chars) : Option (Chars × Chars) :=
  match paramLineStep line with
  | some (.ok p) => some p
  | _ => none

/-- Numeric value of a digit string (callers check every character is a
digit). -/
def digVal (s : Chars) : ℕ :=
  s.foldl (fun a c => a * 10 + (c.toNat - 48)) 0

/-- Leading sign of a numeric literal: (isNegative, remainder). -/
def signSplit : Chars → Bool × Chars
  | '-' :: rest => (true, rest)
  | '+' :: rest => (false, rest)
  | s => (false, s)

/-- Python digit-group grammar `digit (digit | '_' digit)*` continued after
an initial digit: underscores may appear singly and only between digits
(accepted by `int()` and `float()` since Python 3.6). -/
def digitsUAux : Chars → Bool
  | [] => true
  | '_' :: c :: rest => c.isDigit && digitsUAux (c :: rest)
  | ['_'] => false
  | c :: rest => c.isDigit && digitsUAux rest

/-- Nonempty digit run with optional single grouping underscores between
digits. -/
def digitsU (s : Chars) : Bool :=
  match s with
  | c :: rest => c.isDigit && digitsUAux rest
  | [] => false

/-- Numeric value of a digit run, ignoring grouping underscores. -/
def digValU (s : Chars) : ℕ := digVal (s.filter (fun c => c != '_'))

/-- Python `int(value)`: optional surrounding whitespace, optional sign, a
digit run with optional underscore grouping (non-ascii digits are outside
the modelled character set). -/
def pyInt (s : Chars) : Option ℤ :=
  let p := signSplit (trimChars s)
  if digitsU p.2 then
    some (if p.1 then -(digValU p.2 : ℤ) else (digValU p.2 : ℤ))
  else none

/-- Mantissa of a float literal: `digits`, `digits.`, `.digits` or
`digits.digits`, each digit run with optional underscore grouping. -/
def pyMantissa (s : Chars) : Option ℚ :=
  match splitOnChar '.' s with
  | [i] => if digitsU i then some (digValU i : ℚ) else none
  | [i, f] =>
    if (i.isEmpty || digitsU i) && (f.isEmpty || digitsU f)
        && (!(i.isEmpty && f.isEmpty)) then
      some ((digValU i : ℚ)
        + (digValU f : ℚ) / (10 : ℚ) ^ (f.filter (fun c => c != '_')).length)
    else none
  | _ => none

/-- The values Python `float()` can produce: a finite value, a signed
infinity, or nan. -/
inductive PyFloatVal
  | finite (q : ℚ)
  | inf (neg : Bool)
  | nan
deriving DecidableEq

/-- Python `float(value)`: optional surrounding whitespace and sign, then
case-insensitive `inf`, `infinity` or `nan`, or a mantissa with optional
`e`/`E` exponent, every digit run with optional underscore grouping
(non-ascii digits are outside the modelled character set). -/
def pyFloat (s : Chars) : Option PyFloatVal :=
  let p := signSplit (trimChars s)
  let low := p.2.map Char.toLower
  if low == "inf".toList || low == "infinity".toList then some (.inf p.1)
  else if low == "nan".toList then some .nan
  else
    match splitOnChar 'e' low with
    | [m] => (pyMantissa m).map (fun q => .finite (if p.1 then -q else q))
    | [m, ex] =>
      let e := signSplit ex
      if digitsU e.2 then
        (pyMantissa m).map (fun q =>
          let qe := q * (10 : ℚ) ^ (if e.1 then -(digValU e.2 : ℤ) else (digValU e.2 : ℤ))
          .finite (if p.1 then -qe else qe))
      else none
    | _ => none

/-- A typed parameter value: Python `int`, `float` or `str`. -/
inductive PValue
  | pInt (n : ℤ)
  | pFloat (v : PyFloatVal)
  | pStr (s : Chars)
deriving DecidableEq

def intCoe (v : Chars) : Option PValue := (pyInt v).map .pInt

def floatCoe (v : Chars) : Option PValue := (pyFloat v).map .pFloat

def strCoe (v : Chars) : Option PValue := some (.pStr v)

/-- Embeds `PARAM_TRANS` (src lines 23-35): the enumerated parameter set with the
type registered for each field. -/
def PARAM_TRANS : List (Chars × (Chars → Option PValue)) :=
  [("N".toList, intCoe), ("M".toList, intCoe), ("q".toList, intCoe),
   ("steps".toList, intCoe), ("recordFreq".toList, intCoe),
   ("randomSeed".toList, intCoe),
   ("J".toList, floatCoe), ("B".toList, floatCoe), ("T".toList, floatCoe),
   ("tau".toList, floatCoe), ("jobName".toList, strCoe)]

/-- The enumerated parameter names (`PARAM_TRANS.keys()`). -/
def requiredKeys : List Chars := PARAM_TRANS.map Prod.fst

/-- Embeds `PARAM_TRANS[k](v)` including the dictionary lookup: `none` when `k` is
not a registered name (Python KeyError) or the registered coercion rejects
`v` (Python ValueError). -/
def totalCoerce (k v : Chars) : Option PValue :=
  match List.lookup k PARAM_TRANS with
  | none => none
  | some coe => coe v

/-- One iteration of the parameter loop after a successful unpack
(`expr.params[k] = PARAM_TRANS[k](v)`, src line 71), combined with the
result of the remaining iterations: an unregistered name (KeyError) or a
rejected value (ValueError) aborts the load.  The Python dict keeps the
last value of a duplicated name; the association list keeps all of them,
which has the same key set — the only aspect the source inspects
afterwards. -/
def coerceStep (p : Chars × Chars)
    (restRes : Except String (List (Chars × PValue))) :
    Except String (List (Chars × PValue)) :=
  match totalCoerce p.1 p.2 with
  | none => .error "KeyError or ValueError while coercing a parameter"
  | some pv =>
    match restRes with
    | .error e => .error e
    | .ok ps => .ok ((p.1, pv) :: ps)

/-- The parameter loop over the lines after the marker (src lines 69-71):
in source order, each line is ignored (regex mismatch), crashes while
unpacking, or is unpacked and coerced. -/
def coerceLines : List Chars → Except String (List (Chars × PValue))
  | [] => .ok []
  | line :: rest =>
    match paramLineStep line with
    | none => coerceLines rest
    | some (.error e) => .error e
    | some (.ok p) => coerceStep p (coerceLines rest)

/-- Embeds `set(a) == set(b)` on name lists. -/
def keySetEq (a b : List Chars) : Bool :=
  a.all (fun k => b.contains k) && b.all (fun k => a.contains k)

/-- The exact marker line (`line == "PARAMS\n"`, src line 64). -/
def PARAMSline : Chars := "PARAMS".toList

/-- The matched `identifier = value` pairs of the parameter block: every
line after the first `PARAMS` line that matches the regex. -/
def logPairs (lines : List Chars) : List (Chars × Chars) :=
  ((lines.dropWhile (fun l => l != PARAMSline)).drop 1).filterMap matchKV

/-- Embeds `PottsExperiment.from_log` (src lines 56-75): scan to the `PARAMS`
marker (ValueError when end of input comes first), coerce every matched
`identifier = value` line, then require the parsed name set to equal the
enumerated set. -/
def from_log (lines : List Chars) : Except String (List (Chars × PValue)) :=
  match lines.dropWhile (fun l => l != PARAMSline) with
  | [] => .error "ValueError: Unvalid log file"
  | _ :: body =>
    match coerceLines body with
    | .error e => .error e
    | .ok ps =>
      if keySetEq (ps.map Prod.fst) requiredKeys then .ok ps
      else .error "ValueError: Missing parameter in log file"

theorem lookup_none_of_not_mem {β : Type} (k : Chars) (l : List (Chars × β))
    (h : ¬ k ∈ l.map Prod.fst) : List.lookup k l = none := by
  induction l with
  | nil => rfl
  | cons p rest ih =>
    cases p with
    | mk k1 b1 =>
      simp only [List.map_cons, List.mem_cons] at h
      push_neg at h
      obtain ⟨h1, h2⟩ := h
      simp only [List.lookup]
      rw [show (k == k1) = false from beq_eq_false_iff_ne.mpr h1]
      exact ih h2

theorem coerceStep_ok (p : Chars × Chars)
    (r : Except String (List (Chars × PValue))) (qs : List (Chars × PValue))
    (h : coerceStep p r = .ok qs) :
    ∃ pv ps, r = .ok ps ∧ qs = (p.1, pv) :: ps := by
  unfold coerceStep at h
  cases ht : totalCoerce p.1 p.2 with
  | none => rw [ht] at h; cases h
  | some pv =>
    rw [ht] at h
    cases hr : r with
    | error e => rw [hr] at h; cases h
    | ok ps =>
      rw [hr] at h
      cases h
      exact ⟨pv, ps, rfl, rfl⟩

theorem coerceLines_error_of_bad :
    ∀ (ls : List Chars) (k v : Chars),
      (k, v) ∈ ls.filterMap matchKV → totalCoerce k v = none →
      (coerceLines ls).toOption = none := by
  intro ls
  induction ls with
  | nil => intro k v h; cases h
  | cons l rest ih =>
    intro k v hmem hbad
    unfold coerceLines
    cases hstep : paramLineStep l with
    | none =>
      have hfm : (l :: rest).filterMap matchKV = rest.filterMap matchKV := by
        rw [List.filterMap_cons]
        rw [show matchKV l = none from by unfold matchKV; rw [hstep]]
      rw [hfm] at hmem
      exact ih k v hmem hbad
    | some r0 =>
      cases r0 with
      | error e => rfl
      | ok p =>
        have hfm : (l :: rest).filterMap matchKV = p :: rest.filterMap matchKV := by
          rw [List.filterMap_cons]
          rw [show matchKV l = some p from by unfold matchKV; rw [hstep]]
        rw [hfm] at hmem
        show (coerceStep p (coerceLines rest)).toOption = none
        unfold coerceStep
        rcases List.mem_cons.mp hmem with heq | hmem2
        · have hb2 : totalCoerce p.1 p.2 = none := by
            obtain ⟨pk, pv0⟩ := p
            injection heq with h1 h2
            rw [← h1, ← h2]
            exact hbad
          cases ht : totalCoerce p.1 p.2 with
          | none => rfl
          | some pw => rw [ht] at hb2; cases hb2
        · cases ht : totalCoerce p.1 p.2 with
          | none => rfl
          | some pw =>
            have hrec := ih k v hmem2 hbad
            cases hra : coerceLines rest with
            | error e => rfl
            | ok ps2 => rw [hra] at hrec; simp [Except.toOption] at hrec

theorem coerceLines_ok_keys :
    ∀ (ls : List Chars) (qs : List (Chars × PValue)),
      coerceLines ls = .ok qs →
      qs.map Prod.fst = (ls.filterMap matchKV).map Prod.fst := by
  intro ls
  induction ls with
  | nil => intro qs h; cases h; rfl
  | cons l rest ih =>
    intro qs h
    unfold coerceLines at h
    cases hstep : paramLineStep l with
    | none =>
      rw [hstep] at h
      have hfm : (l :: rest).filterMap matchKV = rest.filterMap matchKV := by
        rw [List.filterMap_cons]
        rw [show matchKV l = none from by unfold matchKV; rw [hstep]]
      rw [hfm]
      exact ih qs h
    | some r0 =>
      cases r0 with
      | error e => rw [hstep] at h; cases h
      | ok p =>
        rw [hstep] at h
        have h2 : coerceStep p (coerceLines rest) = .ok qs := h
        obtain ⟨pv, ps, hr, hqs⟩ := coerceStep_ok p (coerceLines rest) qs h2
        have hfm : (l :: rest).filterMap matchKV = p :: rest.filterMap matchKV := by
          rw [List.filterMap_cons]
          rw [show matchKV l = some p from by unfold matchKV; rw [hstep]]
        rw [hqs, hfm]
        simp only [List.map_cons]
        rw [ih ps hr]


theorem from_log_extra_field_errors (lines : List Chars) (k v : Chars)
    (hm : PARAMSline ∈ lines)
    (hp : (k, v) ∈ logPairs lines)
    (hk : ¬ k ∈ requiredKeys) :
    (from_log lines).toOption = none := by
  have hbad : totalCoerce k v = none := by
    unfold totalCoerce
    rw [lookup_none_of_not_mem k PARAM_TRANS hk]
  cases hdw : lines.dropWhile (fun l => l != PARAMSline) with
  | nil =>
    unfold from_log
    rw [hdw]
    rfl
  | cons a body =>
    unfold from_log
    rw [hdw]
    have hp2 : (k, v) ∈ body.filterMap matchKV := by
      unfold logPairs at hp
      rw [hdw] at hp
      simpa using hp
    have herr := coerceLines_error_of_bad body k v hp2 hbad
    show (match coerceLines body with
      | Except.error e => (Except.error e : Except String (List (Chars × PValue)))
      | Except.ok ps =>
        if keySetEq (ps.map Prod.fst) requiredKeys then Except.ok ps
        else Except.error "ValueError: Missing parameter in log file").toOption = none
    cases hca : coerceLines body with
    | error e => rfl
    | ok ps => rw [hca] at herr; simp [Except.toOption] at herr

/-- The log of the C7 counterexample: a complete parameter block plus one
extra `foo = 1` line. -/
def extraFieldLog : List Chars :=
  ["some header text".toList, "PARAMS".toList,
   "N = 2".toList, "M = 2".toList, "q = 2".toList, "steps = 10".toList,
   "recordFreq = 1".toList, "randomSeed = 1234".toList,
   "J = 1.0".toList, "B = 0.0".toList, "T = 1.0".toList, "tau = 10.0".toList,
   "jobName = potts".toList, "foo = 1".toList]

/-- C7 counterexample: on `extraFieldLog` parsing does not succeed with the
extra field ignored — it fails (Python raises KeyError at
`PARAM_TRANS["foo"]`). -/
theorem from_log_extra_field_cex :
    from_log extraFieldLog
      = .error "KeyError or ValueError while coercing a parameter" := by
  rfl

/-- Witness for `from_log_extra_field_errors` at `extraFieldLog`. -/
theorem from_log_extra_field_witness :
    (PARAMSline ∈ extraFieldLog
      ∧ ("foo".toList, "1".toList) ∈ logPairs extraFieldLog
      ∧ ¬ "foo".toList ∈ requiredKeys)
    ∧ (from_log extraFieldLog).toOption = none :=
  ⟨⟨by decide, by decide, by decide⟩,
    from_log_extra_field_errors extraFieldLog "foo".toList "1".toList
      (by decide) (by decide) (by decide)⟩

theorem dropWhile_marker_nil (lines : List Chars) :
    lines.dropWhile (fun l => l != PARAMSline) = [] ↔ ¬ PARAMSline ∈ lines := by
  rw [List.dropWhile_eq_nil_iff]
  constructor
  · intro h hm
    have := h PARAMSline hm
    simp at this
  · intro h l hl
    have : l ≠ PARAMSline := fun heq => h (heq ▸ hl)
    simpa using this

theorem totalTimeList_isOk (ts dts : List ℚ) (h1 : ts ≠ []) (h2 : dts ≠ []) :
    ∃ q, totalTimeList ts dts = .ok q := by
  unfold totalTimeList
  cases hg1 : ts.getLast? with
  | none => exact absurd (List.getLast?_eq_none_iff.mp hg1) h1
  | some tl =>
    cases hg2 : dts.getLast? with
    | none => exact absurd (List.getLast?_eq_none_iff.mp hg2) h2
    | some dl =>
      cases hg3 : ts.head? with
      | none => exact absurd (List.head?_eq_none_iff.mp hg3) h1
      | some t0 => exact ⟨tl + dl - t0, rfl⟩

/-- The log of the C8 counterexample: marker present, all eleven names
present exactly, but the value of `N` fails the `int` coercion. -/
def badValueLog : List Chars :=
  ["some header text".toList, "PARAMS".toList,
   "N = x".toList, "M = 2".toList, "q = 2".toList, "steps = 10".toList,
   "recordFreq = 1".toList, "randomSeed = 1234".toList,
   "J = 1.0".toList, "B = 0.0".toList, "T = 1.0".toList, "tau = 10.0".toList,
   "jobName = potts".toList] 

/-- C8 counterexample: on `badValueLog` none of the failure conditions
enumerated by the claim holds (the marker is present and the parsed name set
equals the enumerated set), yet loading fails — the unparseable value
`N = x` is a failure mode the claimed enumeration omits. -/
theorem loading_fails_outside_enumeration_cex :
    (from_log badValueLog).toOption = none
    ∧ PARAMSline ∈ badValueLog
    ∧ keySetEq ((logPairs badValueLog).map Prod.fst) requiredKeys = true := by
  refine ⟨?_, by decide, by decide⟩
  rfl

/-- C8 (amended): each of the enumerated malformations makes loading fail
eagerly with an error — log: end of input before a `PARAMS` marker line, or
a parsed parameter name set different from the enumerated required set;
trajectory: a first line containing neither `FullState` nor `OnlyChange`,
or an OnlyChange artifact whose second line lacks an "Initial State" entry
— and the Except-valued loaders expose no partial parameter set or
trajectory in any failing case.  The enumeration is sufficient, not
exhaustive: a parameter value that fails its registered coercion also
aborts the load (the counterexample above), a regex-matched line holding a
second `=` crashes the unpack, and in the shipped code every OnlyChange
artifact additionally fails while parsing its initial state (the claim C2
defect). -/
theorem loading_fails_on_malformed (lines : List Chars) (N M : ℕ)
    (firstLine : Chars) (fs : List (FSRow N M)) (oc : OCData N M) (rf : ℤ) :
    (¬ PARAMSline ∈ lines → (from_log lines).toOption = none)
    ∧ (keySetEq ((logPairs lines).map Prod.fst) requiredKeys = false →
        (from_log lines).toOption = none)
    ∧ (findTrajType firstLine = none →
        (load_traj firstLine fs oc rf).toOption = none)
    ∧ (findTrajType firstLine = some TrajKind.onlyChange →
        containsSub oc.secondKey "Initial State".toList = false →
        (load_traj firstLine fs oc rf).toOption = none) := by
  refine ⟨?_, ?_, ?_, ?_⟩
  · intro hm
    have hdw := (dropWhile_marker_nil lines).mpr hm
    unfold from_log
    rw [hdw]
    rfl
  · intro hks
    cases hdw : lines.dropWhile (fun l => l != PARAMSline) with
    | nil =>
      unfold from_log
      rw [hdw]
      rfl
    | cons a body =>
      have hlp : logPairs lines = body.filterMap matchKV := by
        unfold logPairs
        rw [hdw]
        rfl
      rw [hlp] at hks
      unfold from_log
      rw [hdw]
      show (match coerceLines body with
        | Except.error e => (Except.error e : Except String (List (Chars × PValue)))
        | Except.ok ps =>
          if keySetEq (ps.map Prod.fst) requiredKeys then Except.ok ps
          else Except.error "ValueError: Missing parameter in log file").toOption
        = none
      cases hca : coerceLines body with
      | error e => rfl
      | ok qs =>
        have hkeys := coerceLines_ok_keys body qs hca
        show (if keySetEq (qs.map Prod.fst) requiredKeys
            then (Except.ok qs : Except String (List (Chars × PValue)))
            else Except.error "ValueError: Missing parameter in log file").toOption
          = none
        rw [if_neg (by rw [hkeys, hks]; simp)]
        rfl
  · intro hk
    unfold load_traj
    rw [hk]
    rfl
  · intro hk hkey
    have hdec : decodeOnlyChange oc
        = .error "KeyError: Invalid Initial State entry in the 2nd line" := by
      unfold decodeOnlyChange
      rw [if_neg (by simp only [Bool.not_eq_true]; exact hkey)]
    unfold load_traj
    rw [hk, hdec]
    rfl

/-- A log that ends before any `PARAMS` marker line. -/
def noMarkerLog : List Chars := ["some header text".toList, "N = 2".toList]

/-- A log whose parameter block holds only `N`, missing the other required
names. -/
def missingParamLog : List Chars :=
  ["some header text".toList, "PARAMS".toList, "N = 2".toList]

/-- An OnlyChange body whose second line lacks an "Initial State" entry. -/
def badKeyOCData : OCData 1 1 :=
  { secondKey := "# wrong entry ".toList
    initState := fun _ _ => 0
    rows := [{ ri := 0, ci := 0, newSpin := 0, t := 0, dt := 1, energy := 0 }] }

/-- Witness for `loading_fails_on_malformed`: each enumerated malformation
exercised at a concrete input. -/
theorem loading_fails_on_malformed_witness :
    (¬ PARAMSline ∈ noMarkerLog ∧ (from_log noMarkerLog).toOption = none)
    ∧ (keySetEq ((logPairs missingParamLog).map Prod.fst) requiredKeys = false
        ∧ (from_log missingParamLog).toOption = none)
    ∧ (findTrajType ("# garbage".toList) = none
        ∧ (load_traj "# garbage".toList wFSRows wOCData 1).toOption = none)
    ∧ (findTrajType ("# OnlyChange".toList) = some TrajKind.onlyChange
        ∧ containsSub badKeyOCData.secondKey "Initial State".toList = false
        ∧ (load_traj "# OnlyChange".toList wFSRows badKeyOCData 1).toOption = none) :=
  ⟨⟨by decide,
    (loading_fails_on_malformed noMarkerLog 1 1 "# garbage".toList wFSRows
      wOCData 1).1 (by decide)⟩,
   ⟨by decide,
    (loading_fails_on_malformed missingParamLog 1 1 "# garbage".toList wFSRows
      wOCData 1).2.1 (by decide)⟩,
   ⟨by decide,
    (loading_fails_on_malformed noMarkerLog 1 1 "# garbage".toList wFSRows
      wOCData 1).2.2.1 (by decide)⟩,
   ⟨by decide, by decide,
    (loading_fails_on_malformed noMarkerLog 1 1 "# OnlyChange".toList wFSRows
      badKeyOCData 1).2.2.2 (by decide) (by decide)⟩⟩

/-! ## Slicing (PottsResult.__getitem__, src lines 331-340). -/

/-- A Python slice object `slice(start, stop, step)`. -/
structure PySliceSpec where
  start : Option ℤ
  stop : Option ℤ
  step : Option ℤ
deriving DecidableEq

/-- The indices a Python slice selects from a sequence of length `n`
(CPython `PySlice_AdjustIndices`): resolve the negative-from-end convention,
clamp out-of-range bounds, then step through the selected range.  Meaningful
only for a nonzero step; `__getitem__` raises before this runs otherwise. -/
def sliceIndices (n : ℕ) (sp : PySliceSpec) : List ℕ :=
  let st : ℤ := sp.step.getD 1
  if 0 < st then
    let lo : ℤ := match sp.start with
      | none => 0
      | some i => if i < 0 then max 0 (i + n) else min i n
    let hi : ℤ := match sp.stop with
      | none => n
      | some i => if i < 0 then max 0 (i + n) else min i n
    if lo < hi then
      (List.range (((hi - lo).toNat + st.toNat - 1) / st.toNat)).map
        (fun k => (lo + st * k).toNat)
    else []
  else if st < 0 then
    let lo : ℤ := match sp.start with
      | none => (n : ℤ) - 1
      | some i => if i < 0 then max (-1) (i + n) else min i ((n : ℤ) - 1)
    let hi : ℤ := match sp.stop with
      | none => -1
      | some i => if i < 0 then max (-1) (i + n) else min i ((n : ℤ) - 1)
    if hi < lo then
      (List.range (((lo - hi).toNat + (-st).toNat - 1) / (-st).toNat)).map
        (fun k => (lo - (-st).toNat * k).toNat)
    else []
  else []

/-- Embeds `xs[slice_]` on a numpy array of leading length `xs.length`. -/
def pySlice {α : Type} (xs : List α) (sp : PySliceSpec) : List α :=
  (sliceIndices xs.length sp).filterMap (fun i => xs[i]?)

/-- Embeds `PottsResult.__getitem__` (src lines 331-340): deep-copy, restrict the
five arrays to the slice, clear the properties cache, and recompute
`totalSampleTime`: by the span formula `totalTime` when `recordFreq == 1`
(numpy IndexError when the selection is empty) and by the dwell sum
otherwise.  A zero step raises ValueError inside the first slicing. -/
def getitemPy {N M : ℕ} (st : PottsResult N M) (sp : PySliceSpec) :
    Except String (PottsResult N M) :=
  if sp.step = some 0 then .error "ValueError: slice step cannot be zero"
  else
    match (if st.recordFreq = 1
        then totalTimeList (pySlice st.trajT sp) (pySlice st.trajDt sp)
        else .ok (pySlice st.trajDt sp).sum) with
    | .error e => .error e
    | .ok total =>
      .ok { trajIdx := pySlice st.trajIdx sp
            traj := pySlice st.traj sp
            trajT := pySlice st.trajT sp
            trajDt := pySlice st.trajDt sp
            trajEnergy := pySlice st.trajEnergy sp
            totalSampleTime := total
            recordFreq := st.recordFreq
            propsCorr := none
            propsLambda := none }

/-- C9 (amended): for every slice specification with nonzero step whose
selection is nonempty whenever `recordFreq = 1`, slicing returns an
independent copy with all five arrays restricted to the slice, an empty
properties cache, and `totalSampleTime` recomputed by the span formula when
`recordFreq = 1` and by the dwell sum otherwise; the source object is left
untouched (values are immutable in the embedding, mirroring the deep copy). -/
theorem getitem_slices (N M : ℕ) (st : PottsResult N M) (sp : PySliceSpec)
    (hstep : sp.step ≠ some 0)
    (hne : st.recordFreq = 1 →
      pySlice st.trajT sp ≠ [] ∧ pySlice st.trajDt sp ≠ []) :
    getitemPy st sp = .ok
      { trajIdx := pySlice st.trajIdx sp
        traj := pySlice st.traj sp
        trajT := pySlice st.trajT sp
        trajDt := pySlice st.trajDt sp
        trajEnergy := pySlice st.trajEnergy sp
        totalSampleTime :=
          if st.recordFreq = 1 then
            (pySlice st.trajT sp).getLast?.getD 0
              + (pySlice st.trajDt sp).getLast?.getD 0
              - (pySlice st.trajT sp).head?.getD 0
          else (pySlice st.trajDt sp).sum
        recordFreq := st.recordFreq
        propsCorr := none
        propsLambda := none } := by
  unfold getitemPy
  rw [if_neg hstep]
  by_cases hrf : st.recordFreq = 1
  · obtain ⟨hne1, hne2⟩ := hne hrf
    obtain ⟨q, hq⟩ := totalTimeList_isOk _ _ hne1 hne2
    have hqval := totalTimeList_ok _ _ q hq
    rw [if_pos hrf, if_pos hrf, hq, hqval]
  · rw [if_neg hrf, if_neg hrf]

/-- The slice `[0:1]`. -/
def wSlice : PySliceSpec := { start := some 0, stop := some 1, step := none }

/-- C9 counterexample: slicing `twoFrameState` (whose `recordFreq` is 1) with
the empty slice `[0:0]` does not produce a restricted copy — it fails with
IndexError, because the recomputation reads `trajT[-1]` of an empty
selection. -/
theorem getitem_empty_slice_cex :
    getitemPy twoFrameState { start := some 0, stop := some 0, step := none }
      = .error "IndexError: index -1 is out of bounds" := by
  rfl

/-- Witness for `getitem_slices`: slicing `twoFrameState` with `[0:1]`. -/
theorem getitem_slices_witness :
    (wSlice.step ≠ some 0
      ∧ (twoFrameState.recordFreq = 1 →
        pySlice twoFrameState.trajT wSlice ≠ []
          ∧ pySlice twoFrameState.trajDt wSlice ≠ []))
    ∧ getitemPy twoFrameState wSlice = .ok
      { trajIdx := pySlice twoFrameState.trajIdx wSlice
        traj := pySlice twoFrameState.traj wSlice
        trajT := pySlice twoFrameState.trajT wSlice
        trajDt := pySlice twoFrameState.trajDt wSlice
        trajEnergy := pySlice twoFrameState.trajEnergy wSlice
        totalSampleTime :=
          if twoFrameState.recordFreq = 1 then
            (pySlice twoFrameState.trajT wSlice).getLast?.getD 0
              + (pySlice twoFrameState.trajDt wSlice).getLast?.getD 0
              - (pySlice twoFrameState.trajT wSlice).head?.getD 0
          else (pySlice twoFrameState.trajDt wSlice).sum
        recordFreq := twoFrameState.recordFreq
        propsCorr := none
        propsLambda := none } :=
  ⟨⟨by decide, fun _ => ⟨by decide, by decide⟩⟩,
    getitem_slices 2 2 twoFrameState wSlice (by decide)
      (fun _ => ⟨by decide, by decide⟩)⟩
